import Mathlib

/-!
Shallow embedding of the BBSCAS speculative-execution teaching simulator
(`js/cpuModel.js`, `js/attack.js`, `js/defence.js`).

JavaScript numbers are modelled by `JSNum` (a finite rational, `NaN`, or one of
the two infinities); general JavaScript values that cross validation boundaries
are modelled by `JSVal`.  Stateful classes become explicit state passing;
`throw` becomes `Except.error`; `Math.random()` becomes an explicit stream
`rand : Nat -> Rat` together with a cursor index that each consumer advances.
-/

namespace BBSCAS

/-- A JavaScript number: a finite value (modelled as a rational; the simulator
only ever adds, halves, averages and compares, so rationals are exact), `NaN`,
or an infinity. -/
inductive JSNum where
  | fin (q : ℚ)
  | nan
  | posInf
  | negInf
deriving DecidableEq, Repr

/-- A JavaScript value as seen by the validation code: a number, string,
boolean, `undefined`, `null`, or an array.  (Plain objects other than the
timing/pattern records modelled separately never flow through the validated
boundaries of the core.) -/
inductive JSVal where
  | num (n : JSNum)
  | str (s : String)
  | boolv (b : Bool)
  | undef
  | nullv
  | arr (elems : List JSVal)

/-- JavaScript truthiness, `Boolean(v)`. -/
def JSVal.truthy : JSVal → Bool
  | .num (.fin q) => decide (q ≠ 0)
  | .num .nan => false
  | .num .posInf => true
  | .num .negInf => true
  | .str s => decide (s ≠ "")
  | .boolv b => b
  | .undef => false
  | .nullv => false
  | .arr _ => true

/-- The address guard of `CacheLevel.access`:
`typeof address === 'number' && !Number.isNaN(address)`.
Note that the infinities pass this check. -/
def validAddress : JSVal → Bool
  | .num .nan => false
  | .num _ => true
  | _ => false

/-- `typeof v === 'boolean'`. -/
def isBoolVal : JSVal → Bool
  | .boolv _ => true
  | _ => false

/-! ## Cache hierarchy (`js/cpuModel.js`: `CacheLevel`, `CacheModel`) -/

/-- Result record `{level, hit, latency}` of a cache access. -/
structure AccessResult where
  level : String
  hit : Bool
  latency : ℚ
deriving DecidableEq, Repr

/-- One cache level.  `lines` models the `Map` of resident addresses in
insertion order (the `Date.now()` values stored in the map are never read,
so only the ordered key list matters). -/
structure CacheLevel where
  name : String
  size : ℕ
  latency : ℚ
  lines : List JSNum
deriving DecidableEq, Repr

/-- `CacheLevel._insert`: FIFO-evict the oldest key when at capacity, then
append the new address (the address is never already present at the call
site, so `Map.set` appends). -/
def CacheLevel.insertLine (lv : CacheLevel) (a : JSNum) : CacheLevel :=
  { lv with lines := (if lv.size ≤ lv.lines.length then lv.lines.tail else lv.lines) ++ [a] }

/-- `CacheLevel.access`.  The invalid-address throw happens before any
mutation, so the error branch returns the level unchanged.  (The source
interpolates `String(address)` into the message; the message here keeps the
fixed part only.) -/
def CacheLevel.access (lv : CacheLevel) (v : JSVal) : Except String AccessResult × CacheLevel :=
  match v with
  | .num n =>
    if n = .nan then
      (.error ("CacheLevel(" ++ lv.name ++ ") received invalid address"), lv)
    else
      if n ∈ lv.lines then
        (.ok ⟨lv.name, true, lv.latency⟩, lv)
      else
        (.ok ⟨lv.name, false, lv.latency⟩, lv.insertLine n)
  | _ => (.error ("CacheLevel(" ++ lv.name ++ ") received invalid address"), lv)

/-- Two-level hierarchy with a fixed memory-miss latency. -/
structure CacheModel where
  levels : List CacheLevel
  missLatency : ℚ
deriving DecidableEq, Repr

/-- The loop body of `CacheModel.access`: each level is accessed in turn
(each one installing the address on its own miss); the first hit returns
immediately, leaving the remaining levels untouched. -/
def accessLevels (v : JSVal) : List CacheLevel → Except String (Option AccessResult) × List CacheLevel
  | [] => (.ok none, [])
  | lv :: rest =>
    match lv.access v with
    | (.error e, lv1) => (.error e, lv1 :: rest)
    | (.ok r, lv1) =>
      if r.hit then (.ok (some r), lv1 :: rest)
      else
        match accessLevels v rest with
        | (.error e, rest1) => (.error e, lv1 :: rest1)
        | (.ok r2, rest1) => (.ok r2, lv1 :: rest1)

/-- `CacheModel.access`: try each level in order; if no level hits, report a
memory miss with the fixed miss latency. -/
def CacheModel.access (m : CacheModel) (v : JSVal) : Except String AccessResult × CacheModel :=
  match accessLevels v m.levels with
  | (.error e, ls) => (.error e, { m with levels := ls })
  | (.ok (some r), ls) => (.ok r, { m with levels := ls })
  | (.ok none, ls) => (.ok ⟨"memory", false, m.missLatency⟩, { m with levels := ls })

/-- `CacheModel.prime`: `addresses.map((addr) => this.access(addr))`,
sequential and state-threading; a thrown access aborts the map. -/
def CacheModel.prime : CacheModel → List JSVal → Except String (List AccessResult) × CacheModel
  | m, [] => (.ok [], m)
  | m, a :: rest =>
    match m.access a with
    | (.error e, m1) => (.error e, m1)
    | (.ok r, m1) =>
      match m1.prime rest with
      | (.error e, m2) => (.error e, m2)
      | (.ok rs, m2) => (.ok (r :: rs), m2)

/-- `CacheModel.probe` has the same body as `prime` in the source
(`addresses.map((addr) => this.access(addr))`). -/
def CacheModel.probe (m : CacheModel) (addrs : List JSVal) : Except String (List AccessResult) × CacheModel :=
  m.prime addrs

/-- `new CacheModel()`: L1 (8 lines, latency 8), L2 (16 lines, latency 16),
miss latency 42. -/
def CacheModel.init : CacheModel :=
  { levels := [⟨"L1", 8, 8, []⟩, ⟨"L2", 16, 16, []⟩], missLatency := 42 }

/-- A `CacheModel` with the constructor's fixed shape but arbitrary resident
lines, for stating properties over any cache contents. -/
def mkCache (l1 l2 : List JSNum) : CacheModel :=
  { levels := [⟨"L1", 8, 8, l1⟩, ⟨"L2", 16, 16, l2⟩], missLatency := 42 }

/-! ## Branch predictor (`js/cpuModel.js`: `BranchPredictor`) -/

/-- The constructor sets `this.threshold = 2` and no code ever reassigns it,
so the threshold is modelled as a constant. -/
def predictorThreshold : ℤ := 2

/-- Predictor state: saturating counter plus bounded outcome history. -/
structure BranchPredictor where
  history : List Bool
  counter : ℤ
deriving DecidableEq, Repr

/-- `new BranchPredictor()`. -/
def BranchPredictor.init : BranchPredictor := ⟨[], 2⟩

/-- `BranchPredictor._update`: saturate the counter in `[0,3]`, push the
outcome, drop the oldest entry once the history exceeds 16. -/
def BranchPredictor.update (s : BranchPredictor) (outcome : Bool) : BranchPredictor :=
  let counter := if outcome then min 3 (s.counter + 1) else max 0 (s.counter - 1)
  let history := s.history ++ [outcome]
  ⟨if 16 < history.length then history.tail else history, counter⟩

/-- `BranchPredictor.predict`: non-boolean input is only warned about and then
coerced with `Boolean(...)`; the returned prediction uses the counter from
before the update. -/
def BranchPredictor.predict (s : BranchPredictor) (outcome : JSVal) : Bool × BranchPredictor :=
  let normalizedOutcome := outcome.truthy
  let prediction := decide (predictorThreshold ≤ s.counter)
  (prediction, s.update normalizedOutcome)

/-- `BranchPredictor.getConfidence`. -/
def BranchPredictor.getConfidence (s : BranchPredictor) : ℚ := (s.counter : ℚ) / 3

/-! ## Pipeline stage mapper (`js/cpuModel.js`: `Pipeline`, `STAGES`) -/

/-- The fixed stage list. -/
def STAGES : List String := ["fetch", "decode", "execute", "retire"]

/-- A validated instruction token `{label, speculative}`.  On this
representation the shape validation loop of `Pipeline.simulate` always
passes, so it is not repeated here. -/
structure Instr where
  label : String
  speculative : Bool
deriving DecidableEq, Repr

/-- One output row `{stage, instructions}`. -/
structure StageRow where
  stage : String
  instructions : List Instr
deriving DecidableEq, Repr

/-- `Pipeline.simulate`: each stage keeps the instructions whose index equals
the stage index, with the speculative flag recomputed as
`mispredict && instr.speculative`. -/
def Pipeline.simulate (instructions : List Instr) (mispredict : Bool) : List StageRow :=
  STAGES.enum.map fun p =>
    { stage := p.2,
      instructions :=
        (instructions.enum.filter fun q => q.1 == p.1).map fun q =>
          { label := q.2.label, speculative := mispredict && q.2.speculative } }

/-- `buildSpeculativeSequence`. -/
def buildSpeculativeSequence (branchTaken : Bool) : List Instr :=
  [⟨"branch", false⟩,
   ⟨if branchTaken then "target load" else "fallthrough", !branchTaken⟩,
   ⟨"dependent read", !branchTaken⟩,
   ⟨"retire", false⟩]

/-! ## Scalar clamp (`js/cpuModel.js`: `clampTiming`) -/

/-- The free function `clampTiming(value) = Math.max(20, Math.min(value, 180))`,
including its IEEE behaviour on `NaN` (propagates) and infinities. -/
def clampTiming : JSNum → JSNum
  | .nan => .nan
  | .posInf => .fin 180
  | .negInf => .fin 20
  | .fin q => .fin (max 20 (min q 180))

/-! ## JavaScript number arithmetic used by the defence toolkit and runner -/

/-- IEEE addition on `JSNum` (`NaN` propagates, opposite infinities give `NaN`). -/
def JSNum.add : JSNum → JSNum → JSNum
  | .nan, _ => .nan
  | _, .nan => .nan
  | .posInf, .negInf => .nan
  | .negInf, .posInf => .nan
  | .posInf, _ => .posInf
  | _, .posInf => .posInf
  | .negInf, _ => .negInf
  | _, .negInf => .negInf
  | .fin a, .fin b => .fin (a + b)

/-- IEEE negation. -/
def JSNum.neg : JSNum → JSNum
  | .nan => .nan
  | .posInf => .negInf
  | .negInf => .posInf
  | .fin q => .fin (-q)

/-- IEEE subtraction `a - b = a + (-b)`. -/
def JSNum.sub (a b : JSNum) : JSNum := a.add b.neg

/-- `Math.pow(x, 2)`. -/
def JSNum.sq : JSNum → JSNum
  | .nan => .nan
  | .posInf => .posInf
  | .negInf => .posInf
  | .fin q => .fin (q ^ 2)

/-- `x / 2`. -/
def JSNum.half : JSNum → JSNum
  | .nan => .nan
  | .posInf => .posInf
  | .negInf => .negInf
  | .fin q => .fin (q / 2)

/-- `x / n` for a nonnegative integer divisor (a list length in the source);
division by zero follows IEEE (`0/0 = NaN`, `±x/0 = ±Infinity`). -/
def JSNum.divNat (v : JSNum) (n : ℕ) : JSNum :=
  match v with
  | .nan => .nan
  | .posInf => .posInf
  | .negInf => .negInf
  | .fin q =>
    if n = 0 then
      if q = 0 then .nan else if 0 < q then .posInf else .negInf
    else .fin (q / n)

/-- Binary `Math.max` (`NaN` wins, otherwise the larger value). -/
def jsMax2 : JSNum → JSNum → JSNum
  | .nan, _ => .nan
  | _, .nan => .nan
  | .posInf, _ => .posInf
  | _, .posInf => .posInf
  | .negInf, b => b
  | a, .negInf => a
  | .fin a, .fin b => .fin (max a b)

/-- `Math.max(...values)`: variadic max is a fold with identity `-Infinity`. -/
def jsMaxList (values : List JSNum) : JSNum := values.foldl jsMax2 .negInf

/-- `values.reduce((a, b) => a + b, 0)`. -/
def jsSum (values : List JSNum) : JSNum := values.foldl JSNum.add (.fin 0)

/-- `Math.round` for finite arguments: round half toward positive infinity. -/
def jsRound (q : ℚ) : ℤ := ⌊q + 1/2⌋

/-- `Math.round(v / 5) * 5` on a `JSNum`. -/
def JSNum.round5 : JSNum → JSNum
  | .nan => .nan
  | .posInf => .posInf
  | .negInf => .negInf
  | .fin q => .fin ((jsRound (q / 5) : ℚ) * 5)

/-- Whether a `JSNum` is a finite number. -/
def finiteVal : JSNum → Bool
  | .fin _ => true
  | _ => false

/-! ## Defence toolkit (`js/defence.js`: `DefenceToolkit`) -/

/-- The five mitigation toggles held in `this.state`. -/
structure DefState where
  constantTime : Bool
  jitter : Bool
  fence : Bool
  clampTimers : Bool
  detection : Bool
deriving DecidableEq, Repr

/-- `new DefenceToolkit()`: every toggle starts enabled. -/
def DefState.init : DefState := ⟨true, true, true, true, true⟩

/-- The all-false state produced for baseline views. -/
def DefState.allFalse : DefState := ⟨false, false, false, false, false⟩

/-- `DefenceToolkit._assertBoolean` wrapped around one toggle assignment. -/
def DefenceToolkit.setConstantTime (s : DefState) (v : JSVal) : Except String DefState :=
  match v with
  | .boolv b => .ok { s with constantTime := b }
  | _ => .error "DefenceToolkit expected boolean for constantTime"

/-- `setJitter`. -/
def DefenceToolkit.setJitter (s : DefState) (v : JSVal) : Except String DefState :=
  match v with
  | .boolv b => .ok { s with jitter := b }
  | _ => .error "DefenceToolkit expected boolean for jitter"

/-- `setFence`. -/
def DefenceToolkit.setFence (s : DefState) (v : JSVal) : Except String DefState :=
  match v with
  | .boolv b => .ok { s with fence := b }
  | _ => .error "DefenceToolkit expected boolean for fence"

/-- `setClampTimers`. -/
def DefenceToolkit.setClampTimers (s : DefState) (v : JSVal) : Except String DefState :=
  match v with
  | .boolv b => .ok { s with clampTimers := b }
  | _ => .error "DefenceToolkit expected boolean for clampTimers"

/-- `setDetection`. -/
def DefenceToolkit.setDetection (s : DefState) (v : JSVal) : Except String DefState :=
  match v with
  | .boolv b => .ok { s with detection := b }
  | _ => .error "DefenceToolkit expected boolean for detection"

/-- `DefenceToolkit.getState(defended)`: a copy of the state when `defended`
is truthy, otherwise a fresh object with every key of the state forced to
`false` (the state always holds exactly the five toggle keys).  The stored
state is not touched either way. -/
def DefenceToolkit.getState (s : DefState) (defended : JSVal) : DefState :=
  if defended.truthy then s else DefState.allFalse

/-- `DefenceToolkit._assertAddresses` followed by `applyFence`'s body.  In the
pure model returning the list and returning a copy with the same elements are
indistinguishable, so both branches return the argument. -/
def DefenceToolkit.applyFence (addresses : List JSVal) (state : DefState) : Except String (List JSVal) :=
  if addresses.all validAddress then
    .ok (if state.fence then addresses else addresses)
  else
    .error "DefenceToolkit.applyFence expected an array of numeric addresses"

/-- A timing record: phase name to JavaScript number, in property order.
(`_validateTimings` also rejects non-number property values and non-object
arguments; neither ever reaches the toolkit from the runner, and the claims
quantify over numeric records, so values are modelled as `JSNum` directly
with `NaN` as the representable invalid value.) -/
abbrev TRecord := List (String × JSNum)

/-- `DefenceToolkit._validateTimings` on a numeric record: reject an empty
record, and reject at the first `NaN` value. -/
def validateTimings (t : TRecord) : Except String Unit :=
  if t.isEmpty then .error "Timing data must include at least one measurement"
  else
    match t.find? (fun p => p.2 == JSNum.nan) with
    | some p => .error ("Timing for " ++ p.1 ++ " must be numeric")
    | none => .ok ()

/-- `DefenceToolkit.applyConstantTime`: every phase becomes the clamped
maximum of all values. -/
def DefenceToolkit.applyConstantTime (t : TRecord) : Except String TRecord :=
  match validateTimings t with
  | .error e => .error e
  | .ok _ => .ok (t.map fun p => (p.1, clampTiming (jsMaxList (t.map fun q => q.2))))

/-- `DefenceToolkit._jitter()`: `Math.floor(Math.random() * 10) - 5`,
reading the random stream at cursor `k`. -/
def jitterOffset (rand : ℕ → ℚ) (k : ℕ) : ℚ := (⌊rand k * 10⌋ : ℚ) - 5

/-- The jitter branch of `applyDefences`: each entry gets one `_jitter()`
draw in order, then is clamped. -/
def jitterEntries : TRecord → (ℕ → ℚ) → ℕ → TRecord × ℕ
  | [], _, k => ([], k)
  | p :: rest, rand, k =>
    let v := clampTiming (p.2.add (.fin (jitterOffset rand k)))
    let r := jitterEntries rest rand (k + 1)
    ((p.1, v) :: r.1, r.2)

/-- Property read `record.key`: `undefined` when absent. -/
def lookupKey (t : TRecord) (key : String) : Option JSNum :=
  (t.find? fun p => p.1 == key).map fun p => p.2

/-- Property write `record.key = v`: update in place when present, append
otherwise. -/
def setKey (t : TRecord) (key : String) (v : JSNum) : TRecord :=
  if t.any (fun p => p.1 == key) then
    t.map fun p => if p.1 == key then (p.1, v) else p
  else t ++ [(key, v)]

/-- `DefenceToolkit.applyDefences`: optional per-entry jitter, then, when
`state.fence && mispredict`, `jittered.speculate = clampTiming(jittered.speculate / 2)`.
When the record has no `speculate` property that read is `undefined`, so the
halving produces `NaN` and the assignment adds a `speculate` key with value
`NaN`. -/
def DefenceToolkit.applyDefences (t : TRecord) (mispredict : Bool) (state : DefState)
    (rand : ℕ → ℚ) (k : ℕ) : Except String (TRecord × ℕ) :=
  match validateTimings t with
  | .error e => .error e
  | .ok _ =>
    let jk := if state.jitter then jitterEntries t rand k else (t, k)
    if state.fence && mispredict then
      let halved := match lookupKey jk.1 "speculate" with
        | some v => v.half
        | none => JSNum.nan
      .ok (setKey jk.1 "speculate" (clampTiming halved), jk.2)
    else .ok jk

/-- `DefenceToolkit.clampTiming` (the method, distinct from the free
function): round every value to a multiple of 5; no range clamping. -/
def DefenceToolkit.clampTiming (t : TRecord) : Except String TRecord :=
  match validateTimings t with
  | .error e => .error e
  | .ok _ => .ok (t.map fun p => (p.1, p.2.round5))

/-- `detectAnomaly`'s result.  `std = Math.sqrt(variance)` is irrational in
general, so the structure carries the variance; `suspicious = std > 12` is
equivalently `variance > 144` on finite nonnegative variances, and the
`NaN`/infinity cases follow the IEEE comparison (`NaN > 12` is false). -/
structure Detection where
  avg : JSNum
  varianceVal : JSNum
  suspicious : Bool
deriving DecidableEq, Repr

/-- `DefenceToolkit.detectAnomaly`: population mean and variance, suspicious
iff the standard deviation exceeds 12. -/
def DefenceToolkit.detectAnomaly (t : TRecord) : Except String Detection :=
  match validateTimings t with
  | .error e => .error e
  | .ok _ =>
    let values := t.map fun p => p.2
    let n := values.length
    let avg := (jsSum values).divNat n
    let variance := (jsSum (values.map fun v => (v.sub avg).sq)).divNat n
    let suspicious := match variance with
      | .fin q => decide (144 < q)
      | .posInf => true
      | _ => false
    .ok ⟨avg, variance, suspicious⟩

/-! ## Attack scenario runner (`js/attack.js`: `AttackSimulator`) -/

/-- The raw fields of a scenario pattern object before validation. -/
structure JSPattern where
  name : JSVal
  training : JSVal
  trigger : JSVal

/-- A pattern that passed `_validatePattern`. -/
structure ValidPattern where
  name : String
  training : List Bool
  trigger : Bool
deriving DecidableEq, Repr

/-- `Array.isArray(v) && !v.some((x) => typeof x !== 'boolean')`, returning
the booleans. -/
def asBoolArray : JSVal → Option (List Bool)
  | .arr vs => vs.mapM fun v => match v with | .boolv b => some b | _ => none
  | _ => none

/-- `AttackSimulator._validatePattern`, with `none` standing for any
non-object pattern argument (every one of those fails the first check:
falsy values fail `!pattern`, truthy primitives have no string `name`).
Note the name check only requires a string, not a non-empty one. -/
def validatePattern : Option JSPattern → Except String ValidPattern
  | none => .error "Pattern must include a name"
  | some p =>
    match p.name with
    | .str s =>
      match asBoolArray p.training with
      | none => .error "Pattern.training must be an array of booleans"
      | some training =>
        match p.trigger with
        | .boolv trigger => .ok ⟨s, training, trigger⟩
        | _ => .error "Pattern.trigger must be a boolean"
    | _ => .error "Pattern must include a name"

/-- The condition under which `_validatePattern` or the `defended` check
throws, phrased directly on the inputs. -/
def patternMalformed (p : Option JSPattern) : Bool :=
  match p with
  | none => true
  | some p =>
    (match p.name with | .str _ => false | _ => true) ||
    (asBoolArray p.training).isNone ||
    !(isBoolVal p.trigger)

/-- `MOCK_MEMORY = Array.from({length: 32}, (_, i) => i * 4)`. -/
def MOCK_MEMORY : List ℚ := (List.range 32).map fun i => (i : ℚ) * 4

/-- `artificialDelay(base, jitter)`: when `jitter` is truthy (nonzero) one
random draw yields `Math.floor(Math.random() * jitter) - jitter / 2`,
otherwise the variance is 0; the sum is range-clamped. -/
def artificialDelay (base : JSNum) (jitter : ℚ) (rand : ℕ → ℚ) (k : ℕ) : JSNum × ℕ :=
  if jitter = 0 then (clampTiming base, k)
  else (clampTiming (base.add (.fin ((⌊rand k * jitter⌋ : ℚ) - jitter / 2))), k + 1)

/-- The mutable collaborators one `AttackSimulator` owns: its cache and its
predictor (the pipeline mapper is stateless). -/
structure SimState where
  cache : CacheModel
  predictor : BranchPredictor
deriving DecidableEq, Repr

/-- `new AttackSimulator(...)`. -/
def SimState.init : SimState := ⟨CacheModel.init, BranchPredictor.init⟩

/-- Feeding each training outcome through `predictor.predict` in order,
collecting the predictions. -/
def trainPredictor : BranchPredictor → List Bool → List Bool × BranchPredictor
  | p, [] => ([], p)
  | p, o :: rest =>
    let pr := p.predict (.boolv o)
    let rs := trainPredictor pr.2 rest
    (pr.1 :: rs.1, rs.2)

/-- The `ScenarioResult` object returned by `run` (the pipeline view and the
cache snapshot go only to the renderer and are not part of the result). -/
structure RunResult where
  summary : String
  primeResults : List AccessResult
  trainingResults : List Bool
  mispredict : Bool
  speculativeAccess : AccessResult
  probeResults : List AccessResult
  measurements : TRecord
  detection : Option Detection
deriving DecidableEq, Repr

/-- `AttackSimulator.run(pattern, defended)`.  A rejected promise is an
`Except.error`; the returned `SimState` carries whatever mutations the shared
cache and predictor accumulated before the return or throw, and the final
`ℕ` is the random-stream cursor.  Renderer and logger calls are pure effects
on out-of-scope collaborators and have no model. -/
def AttackSimulator.run (defence : DefState) (st : SimState) (pattern : Option JSPattern)
    (defended : JSVal) (rand : ℕ → ℚ) (k : ℕ) :
    Except String RunResult × SimState × ℕ :=
  match validatePattern pattern with
  | .error e => (.error e, st, k)
  | .ok p =>
    match defended with
    | .boolv _ =>
      let defenceState := DefenceToolkit.getState defence defended
      let baseAddrs := (MOCK_MEMORY.take (p.training.length + 2)).map fun q => JSVal.num (.fin q)
      match DefenceToolkit.applyFence baseAddrs defenceState with
      | .error e => (.error e, st, k)
      | .ok addresses =>
        match st.cache.prime addresses with
        | (.error e, c1) => (.error e, ⟨c1, st.predictor⟩, k)
        | (.ok primeResults, c1) =>
          let tr := trainPredictor st.predictor p.training
          let pd := tr.2.predict (.boolv p.trigger)
          let mispredict := pd.1 != p.trigger
          let speculativeSeq := buildSpeculativeSequence p.trigger
          let _pipelineView := Pipeline.simulate speculativeSeq (mispredict && !defenceState.fence)
          let addr0 : JSVal := match addresses with | a :: _ => a | [] => .undef
          match c1.access addr0 with
          | (.error e, c2) => (.error e, ⟨c2, pd.2⟩, k)
          | (.ok speculativeAccess, c2) =>
            match c2.probe (addresses.take 4) with
            | (.error e, c3) => (.error e, ⟨c3, pd.2⟩, k)
            | (.ok probeResults, c3) =>
              let jopt : ℚ := if defenceState.jitter then 8 else 0
              let d1 := artificialDelay (.fin 60) jopt rand k
              let d2 := artificialDelay (.fin (speculativeAccess.latency * 2)) jopt rand d1.2
              let probeBase : JSNum :=
                if probeResults.length = 0 then .nan
                else .fin ((probeResults.foldl (fun s r => s + r.latency) 0) / probeResults.length)
              let d3 := artificialDelay probeBase jopt rand d2.2
              let baseTiming : TRecord := [("prime", d1.1), ("speculate", d2.1), ("probe", d3.1)]
              let timingsStep : Except String (TRecord × ℕ) :=
                if defenceState.constantTime then
                  match DefenceToolkit.applyConstantTime baseTiming with
                  | .error e => .error e
                  | .ok t2 => .ok (t2, d3.2)
                else
                  DefenceToolkit.applyDefences baseTiming mispredict defenceState rand d3.2
              match timingsStep with
              | .error e => (.error e, ⟨c3, pd.2⟩, d3.2)
              | .ok (timings, k4) =>
                match (if defenceState.clampTimers then DefenceToolkit.clampTiming timings
                       else .ok timings) with
                | .error e => (.error e, ⟨c3, pd.2⟩, k4)
                | .ok measurements =>
                  let detectionStep : Except String (Option Detection) :=
                    if defenceState.detection then
                      match DefenceToolkit.detectAnomaly measurements with
                      | .error e => .error e
                      | .ok dres => .ok (some dres)
                    else .ok none
                  match detectionStep with
                  | .error e => (.error e, ⟨c3, pd.2⟩, k4)
                  | .ok detection =>
                    (.ok { summary := if mispredict then "Speculative path observed"
                                      else "No speculation observed",
                           primeResults := primeResults,
                           trainingResults := tr.1,
                           mispredict := mispredict,
                           speculativeAccess := speculativeAccess,
                           probeResults := probeResults,
                           measurements := measurements,
                           detection := detection },
                     ⟨c3, pd.2⟩, k4)
    | _ => (.error "AttackSimulator.run requires defended flag to be boolean", st, k)

/-- `ATTACK_PATTERNS.branchTrain`. -/
def branchTrainPattern : Option JSPattern :=
  some ⟨.str "Branch training & mistrain",
        .arr [.boolv true, .boolv true, .boolv true, .boolv true],
        .boolv false⟩

/-- A valid timing record in the spec's sense: at least one entry, every
value a finite number. -/
def finiteRecord (t : TRecord) : Bool := !t.isEmpty && t.all fun p => finiteVal p.2

/-- Whether an `Except` value is an error (a thrown exception / rejected
promise). -/
def isErr {α : Type} : Except String α → Bool
  | .error _ => true
  | .ok _ => false

/-- A toggle state with only the fence mitigation enabled. -/
def fenceOnlyState : DefState := ⟨false, false, true, false, false⟩

end BBSCAS

namespace BBSCAS

-- Batteries marks the rational operations irreducible, which would block
-- definitional evaluation of the model on concrete inputs; restore the
-- default transparency inside this development.
attribute [local semireducible] Rat.add Rat.mul Rat.inv

/-! ## General lemmas -/

theorem option_toList_map {α β γ : Type} (o : Option α) (f : α → β) (g : β → γ) :
    ((o.map f).toList).map g = (o.map fun a => g (f a)).toList := by
  cases o <;> rfl

theorem enumFrom_filter_lt {α : Type} (l : List α) :
    ∀ n m : ℕ, m < n → (List.enumFrom n l).filter (fun q => q.1 == m) = [] := by
  induction l with
  | nil => intro n m _; rfl
  | cons a l ih =>
    intro n m hm
    have hne : (n == m) = false := by
      simp only [beq_eq_false_iff_ne, ne_eq]
      omega
    simp only [List.enumFrom, List.filter_cons, hne]
    exact ih (n + 1) m (Nat.lt_succ_of_lt hm)

theorem enumFrom_filter_get {α : Type} (l : List α) :
    ∀ n i : ℕ, (List.enumFrom n l).filter (fun q => q.1 == n + i) =
      ((l[i]?).map fun a => (n + i, a)).toList := by
  induction l with
  | nil => intro n i; rfl
  | cons a l ih =>
    intro n i
    cases i with
    | zero =>
      have h1 : (n == n + 0) = true := by simp
      simp only [List.enumFrom, List.filter_cons, h1, if_true]
      rw [enumFrom_filter_lt l (n + 1) (n + 0) (by omega)]
      simp
    | succ i =>
      have h1 : (n == n + (i + 1)) = false := by
        simp only [beq_eq_false_iff_ne, ne_eq]
        omega
      simp only [List.enumFrom, List.filter_cons, h1]
      have h2 := ih (n + 1) i
      rw [show n + (i + 1) = (n + 1) + i by omega]
      rw [h2]
      simp

theorem enum_filter_get {α : Type} (l : List α) (i : ℕ) :
    (l.enum.filter fun q => q.1 == i) = ((l[i]?).map fun a => (i, a)).toList := by
  have h := enumFrom_filter_get l 0 i
  simpa using h

/-! ## Claim theorems -/

/-- C7: `BranchPredictor.predict` never throws (it is total on arbitrary
JavaScript values), returns the prediction `counter >= 2` computed from the
pre-update counter, then increments the counter capped at 3 on a truthy
outcome and decrements it floored at 0 otherwise, and appends the
boolean-normalized outcome to the (16-bounded) history. -/
theorem branchPredictor_predict_spec (v : JSVal) (s : BranchPredictor) :
    s.predict v =
      (decide (2 ≤ s.counter),
       ⟨(if 16 < (s.history ++ [v.truthy]).length then (s.history ++ [v.truthy]).tail
         else s.history ++ [v.truthy]),
        (if v.truthy then min 3 (s.counter + 1) else max 0 (s.counter - 1))⟩) := by
  rfl

/-- C8: `getState(false)` yields all five toggles false whatever the stored
state is, and the stored state is untouched: `getState(true)` on the same
state still returns exactly the stored toggles. -/
theorem getState_baseline_spec (s : DefState) :
    DefenceToolkit.getState s (.boolv false) = ⟨false, false, false, false, false⟩ ∧
    DefenceToolkit.getState s (.boolv true) = s :=
  ⟨rfl, rfl⟩

/-- C9: `Pipeline.simulate` returns the four stages fetch, decode, execute,
retire in order; stage `i` holds exactly the input instruction at index `i`
(nothing when the list is shorter, and instructions beyond index 3 appear in
no stage), with the speculative flag recomputed as
`mispredict && original`. -/
theorem pipeline_simulate_spec (instrs : List Instr) (m : Bool) :
    Pipeline.simulate instrs m =
      [⟨"fetch", ((instrs[0]?).map fun i => ⟨i.label, m && i.speculative⟩).toList⟩,
       ⟨"decode", ((instrs[1]?).map fun i => ⟨i.label, m && i.speculative⟩).toList⟩,
       ⟨"execute", ((instrs[2]?).map fun i => ⟨i.label, m && i.speculative⟩).toList⟩,
       ⟨"retire", ((instrs[3]?).map fun i => ⟨i.label, m && i.speculative⟩).toList⟩] := by
  have e : STAGES.enum = [(0, "fetch"), (1, "decode"), (2, "execute"), (3, "retire")] := rfl
  unfold Pipeline.simulate
  rw [e]
  simp only [List.map]
  rw [enum_filter_get instrs 0, enum_filter_get instrs 1, enum_filter_get instrs 2,
    enum_filter_get instrs 3]
  simp only [option_toList_map]

/-- C1 (amended): a full miss on a finite address absent from both levels
returns `{level: "memory", hit: false, latency: 42}`, but the address is
installed into **every** level — L1 and L2 — each with its single oldest
line FIFO-evicted first when that level is full (the access loop calls each
level's `access`, which installs on that level's own miss). -/
theorem cacheModel_access_full_miss (l1 l2 : List JSNum) (q : ℚ)
    (h1 : JSNum.fin q ∉ l1) (h2 : JSNum.fin q ∉ l2) :
    (mkCache l1 l2).access (.num (.fin q)) =
      (.ok ⟨"memory", false, 42⟩,
       mkCache ((if 8 ≤ l1.length then l1.tail else l1) ++ [.fin q])
               ((if 16 ≤ l2.length then l2.tail else l2) ++ [.fin q])) := by
  simp [CacheModel.access, accessLevels, CacheLevel.access, mkCache, CacheLevel.insertLine,
    h1, h2]

/-- Witness for C1 at a full L1 and empty L2: the oldest L1 line `0` is
evicted, and the missed address `100` lands in both levels. -/
theorem cacheModel_access_full_miss_witness :
    (JSNum.fin 100 ∉
      ([.fin 0, .fin 1, .fin 2, .fin 3, .fin 4, .fin 5, .fin 6, .fin 7] : List JSNum)) ∧
    (JSNum.fin 100 ∉ ([] : List JSNum)) ∧
    (mkCache [.fin 0, .fin 1, .fin 2, .fin 3, .fin 4, .fin 5, .fin 6, .fin 7] []).access
        (.num (.fin 100)) =
      (.ok ⟨"memory", false, 42⟩,
       mkCache [.fin 1, .fin 2, .fin 3, .fin 4, .fin 5, .fin 6, .fin 7, .fin 100]
               [.fin 100]) :=
  ⟨by decide, by decide, by
    rw [cacheModel_access_full_miss _ _ _ (by decide) (by decide)]
    rfl⟩

/-- C1 counterexample: on a fresh cache, the very first access of address 0
is a full miss, after which L2 — not only L1 — contains the address,
contradicting the claim that only the first level changes. -/
theorem cacheModel_access_full_miss_cex :
    (CacheModel.init.access (.num (.fin 0))).1 = .ok ⟨"memory", false, 42⟩ ∧
    ((CacheModel.init.access (.num (.fin 0))).2.levels.map CacheLevel.lines)[1]? =
      some [JSNum.fin 0] ∧
    (CacheModel.init.levels.map CacheLevel.lines)[1]? = some [] :=
  ⟨rfl, rfl, rfl⟩

/-- C2 (amended): an access to an address resident in some level returns a
hit with the name and latency of the first containing level (L1 before L2);
the containing level and all later levels are unchanged, but every earlier
level that missed has the address installed into it (FIFO eviction if that
level is full).  Contents are unchanged exactly when the hit is in L1. -/
theorem cacheModel_access_hit (l1 l2 : List JSNum) (q : ℚ) :
    (JSNum.fin q ∈ l1 →
      (mkCache l1 l2).access (.num (.fin q)) = (.ok ⟨"L1", true, 8⟩, mkCache l1 l2)) ∧
    (JSNum.fin q ∉ l1 → JSNum.fin q ∈ l2 →
      (mkCache l1 l2).access (.num (.fin q)) =
        (.ok ⟨"L2", true, 16⟩,
         mkCache ((if 8 ≤ l1.length then l1.tail else l1) ++ [.fin q]) l2)) := by
  constructor
  · intro h
    simp [CacheModel.access, accessLevels, CacheLevel.access, mkCache, h]
  · intro hn h
    simp [CacheModel.access, accessLevels, CacheLevel.access, mkCache,
      CacheLevel.insertLine, hn, h]

/-- Witness for C2: an L1 hit leaves everything unchanged; an L2-only hit
reports L2 but installs the address into L1. -/
theorem cacheModel_access_hit_witness :
    (JSNum.fin 3 ∈ ([.fin 3] : List JSNum)) ∧
    (mkCache [.fin 3] []).access (.num (.fin 3)) =
      (.ok ⟨"L1", true, 8⟩, mkCache [.fin 3] []) ∧
    (JSNum.fin 5 ∉ ([] : List JSNum)) ∧ (JSNum.fin 5 ∈ ([.fin 5] : List JSNum)) ∧
    (mkCache [] [.fin 5]).access (.num (.fin 5)) =
      (.ok ⟨"L2", true, 16⟩, mkCache [.fin 5] [.fin 5]) :=
  ⟨by decide,
   (cacheModel_access_hit [.fin 3] [] 3).1 (by decide),
   by decide, by decide,
   by
    rw [(cacheModel_access_hit [] [.fin 5] 5).2 (by decide) (by decide)]
    rfl⟩

/-- C2 counterexample, reached purely through the public API: prime a fresh
cache with nine distinct addresses (so address 0 is evicted from L1 but
still resident in L2), then access address 0.  The access returns an L2 hit
yet mutates L1's contents, contradicting the claim that every level is
unchanged on a hit. -/
theorem cacheModel_access_hit_cex :
    (((CacheModel.init.prime ((List.range 9).map fun i => JSVal.num (.fin i))).2.access
        (.num (.fin 0))).1 = .ok ⟨"L2", true, 16⟩) ∧
    ((CacheModel.init.prime ((List.range 9).map fun i => JSVal.num (.fin i))).2.access
        (.num (.fin 0))).2.levels.map CacheLevel.lines ≠
      ((CacheModel.init.prime ((List.range 9).map fun i => JSVal.num (.fin i))).2.levels.map
        CacheLevel.lines) := by
  constructor
  · rfl
  · decide

/-- C3 (amended): `CacheModel.access` throws its address-validation error iff
the address is not a number or is `NaN` — the non-finite infinities are
accepted — and when it throws, no level's contents have been mutated (the
returned model equals the input model). -/
theorem cacheModel_access_error_iff (l1 l2 : List JSNum) (v : JSVal) :
    (isErr ((mkCache l1 l2).access v).1 = true ↔ validAddress v = false) ∧
    (validAddress v = false →
      (mkCache l1 l2).access v =
        (.error "CacheLevel(L1) received invalid address", mkCache l1 l2)) := by
  cases v with
  | num n =>
    cases n with
    | fin q =>
      constructor
      · by_cases h1 : JSNum.fin q ∈ l1
        · simp [CacheModel.access, accessLevels, CacheLevel.access, mkCache, isErr,
            validAddress, h1]
        · by_cases h2 : JSNum.fin q ∈ l2 <;>
            simp [CacheModel.access, accessLevels, CacheLevel.access, mkCache,
              CacheLevel.insertLine, isErr, validAddress, h1, h2]
      · intro h
        simp [validAddress] at h
    | nan =>
      constructor
      · simp [CacheModel.access, accessLevels, CacheLevel.access, mkCache, isErr, validAddress]
      · intro _
        rfl
    | posInf =>
      constructor
      · by_cases h1 : JSNum.posInf ∈ l1
        · simp [CacheModel.access, accessLevels, CacheLevel.access, mkCache, isErr,
            validAddress, h1]
        · by_cases h2 : JSNum.posInf ∈ l2 <;>
            simp [CacheModel.access, accessLevels, CacheLevel.access, mkCache,
              CacheLevel.insertLine, isErr, validAddress, h1, h2]
      · intro h
        simp [validAddress] at h
    | negInf =>
      constructor
      · by_cases h1 : JSNum.negInf ∈ l1
        · simp [CacheModel.access, accessLevels, CacheLevel.access, mkCache, isErr,
            validAddress, h1]
        · by_cases h2 : JSNum.negInf ∈ l2 <;>
            simp [CacheModel.access, accessLevels, CacheLevel.access, mkCache,
              CacheLevel.insertLine, isErr, validAddress, h1, h2]
      · intro h
        simp [validAddress] at h
  | str s =>
    exact ⟨by simp [CacheModel.access, accessLevels, CacheLevel.access, mkCache, isErr,
      validAddress], fun _ => rfl⟩
  | boolv b =>
    exact ⟨by simp [CacheModel.access, accessLevels, CacheLevel.access, mkCache, isErr,
      validAddress], fun _ => rfl⟩
  | undef =>
    exact ⟨by simp [CacheModel.access, accessLevels, CacheLevel.access, mkCache, isErr,
      validAddress], fun _ => rfl⟩
  | nullv =>
    exact ⟨by simp [CacheModel.access, accessLevels, CacheLevel.access, mkCache, isErr,
      validAddress], fun _ => rfl⟩
  | arr es =>
    exact ⟨by simp [CacheModel.access, accessLevels, CacheLevel.access, mkCache, isErr,
      validAddress], fun _ => rfl⟩

/-- Witness for C3 at a string address: the call throws and the cache is
unchanged. -/
theorem cacheModel_access_error_iff_witness :
    (isErr ((mkCache [] []).access (.str "invalid")).1 = true ↔
      validAddress (.str "invalid") = false) ∧
    (validAddress (.str "invalid") = false →
      (mkCache [] []).access (.str "invalid") =
        (.error "CacheLevel(L1) received invalid address", mkCache [] [])) :=
  cacheModel_access_error_iff [] [] (.str "invalid")

/-- C3 counterexample: `Infinity` is a number that is not finite, yet
`access` accepts it and reports a plain memory miss instead of throwing,
refuting the claimed "iff the address is not a finite number". -/
theorem cacheModel_access_error_iff_cex :
    finiteVal JSNum.posInf = false ∧
    (CacheModel.init.access (.num .posInf)).1 = .ok ⟨"memory", false, 42⟩ :=
  ⟨rfl, rfl⟩

theorem validateTimings_ok_of_finite (t : TRecord) (h : finiteRecord t = true) :
    validateTimings t = .ok () := by
  unfold validateTimings
  unfold finiteRecord at h
  rw [Bool.and_eq_true] at h
  obtain ⟨h1, h2⟩ := h
  rw [if_neg (by simpa using h1)]
  have hnone : t.find? (fun p => p.2 == JSNum.nan) = none := by
    rw [List.find?_eq_none]
    intro p hp
    have hfin := List.all_eq_true.mp h2 p hp
    cases hv : p.2 <;> simp [finiteVal, hv] at hfin ⊢
  rw [hnone]

theorem jitterEntries_keys (t : TRecord) : ∀ (rand : ℕ → ℚ) (k : ℕ),
    (jitterEntries t rand k).1.map Prod.fst = t.map Prod.fst := by
  induction t with
  | nil => intro rand k; rfl
  | cons p rest ih =>
    intro rand k
    simp [jitterEntries, ih rand (k + 1)]

theorem jitterEntries_finite (t : TRecord) : ∀ (rand : ℕ → ℚ) (k : ℕ),
    (∀ p ∈ t, finiteVal p.2 = true) →
    ∀ p ∈ (jitterEntries t rand k).1, finiteVal p.2 = true := by
  induction t with
  | nil => intro rand k _ p hp; simp [jitterEntries] at hp
  | cons q rest ih =>
    intro rand k h p hp
    simp only [jitterEntries] at hp
    rcases List.mem_cons.mp hp with heq | hmem
    · subst heq
      have hq := h q (List.mem_cons_self q rest)
      cases hv : q.2 <;> simp [hv, finiteVal] at hq ⊢
      · simp [JSNum.add, clampTiming, finiteVal]
    · exact ih rand (k + 1) (fun r hr => h r (List.mem_cons_of_mem q hr)) p hmem

theorem jitterEntries_lookup_isSome (t : TRecord) (key : String) :
    ∀ (rand : ℕ → ℚ) (k : ℕ),
    (lookupKey (jitterEntries t rand k).1 key).isSome = (lookupKey t key).isSome := by
  induction t with
  | nil => intro rand k; rfl
  | cons q rest ih =>
    intro rand k
    by_cases hq : (q.1 == key) = true
    · simp [jitterEntries, lookupKey, List.find?, hq]
    · simp only [jitterEntries, lookupKey, List.find?, Bool.not_eq_true] at ih ⊢
      rw [Bool.not_eq_true] at hq
      simp only [hq]
      exact ih rand (k + 1)

theorem jitterEntries_lookup_finite (t : TRecord) (key : String) :
    ∀ (rand : ℕ → ℚ) (k : ℕ) (v : JSNum),
    (∀ p ∈ t, finiteVal p.2 = true) →
    lookupKey (jitterEntries t rand k).1 key = some v → finiteVal v = true := by
  intro rand k v hfin hl
  unfold lookupKey at hl
  cases hf : (jitterEntries t rand k).1.find? (fun p => p.1 == key) with
  | none => rw [hf] at hl; simp at hl
  | some p =>
    rw [hf] at hl
    simp at hl
    subst hl
    exact jitterEntries_finite t rand k hfin p (List.mem_of_find?_eq_some hf)

theorem setKey_finite (t : TRecord) (key : String) (v : JSNum)
    (ht : ∀ p ∈ t, finiteVal p.2 = true) (hv : finiteVal v = true) :
    ∀ p ∈ setKey t key v, finiteVal p.2 = true := by
  intro p hp
  unfold setKey at hp
  by_cases hk : (t.any fun p => p.1 == key) = true
  · rw [if_pos hk] at hp
    rcases List.mem_map.mp hp with ⟨q, hq, heq⟩
    by_cases hqk : (q.1 == key) = true
    · rw [if_pos hqk] at heq
      subst heq
      exact hv
    · rw [if_neg hqk] at heq
      subst heq
      exact ht q hq
  · rw [if_neg hk] at hp
    rcases List.mem_append.mp hp with hmem | hmem
    · exact ht p hmem
    · rcases List.mem_singleton.mp hmem with rfl
      exact hv

/-- C5 (amended): for a valid timing record (non-empty, all values finite),
any mispredict flag and any defence state, `applyDefences` succeeds and
returns a record whose values are all finite, **provided** that whenever
`state.fence` and `mispredict` are both set the record contains a
`speculate` entry.  (When that entry is absent, the fence adjustment reads
`undefined`, halves it to `NaN`, and adds a `speculate` key whose value is
`NaN` — see the counterexample.) -/
theorem applyDefences_finite (t : TRecord) (mis : Bool) (st : DefState)
    (rand : ℕ → ℚ) (k : ℕ)
    (hfin : finiteRecord t = true)
    (hspec : (st.fence && mis) = true → (lookupKey t "speculate").isSome = true) :
    ∃ out k1, DefenceToolkit.applyDefences t mis st rand k = .ok (out, k1) ∧
      ∀ p ∈ out, finiteVal p.2 = true := by
  have hall : ∀ p ∈ t, finiteVal p.2 = true := by
    unfold finiteRecord at hfin
    rw [Bool.and_eq_true] at hfin
    exact fun p hp => List.all_eq_true.mp hfin.2 p hp
  unfold DefenceToolkit.applyDefences
  rw [validateTimings_ok_of_finite t hfin]
  have hjfin : ∀ p ∈ (if st.jitter then jitterEntries t rand k else (t, k)).1,
      finiteVal p.2 = true := by
    cases hj : st.jitter
    · simpa [hj] using hall
    · simp only [hj, if_true]
      exact jitterEntries_finite t rand k hall
  by_cases hf : (st.fence && mis) = true
  · simp only [hf, if_true]
    have hsome : (lookupKey (if st.jitter then jitterEntries t rand k else (t, k)).1
        "speculate").isSome = true := by
      cases hj : st.jitter
      · simpa [hj] using hspec hf
      · simp only [hj, if_true]
        rw [jitterEntries_lookup_isSome]
        exact hspec hf
    cases hl : lookupKey (if st.jitter then jitterEntries t rand k else (t, k)).1
        "speculate" with
    | none => rw [hl] at hsome; simp at hsome
    | some v =>
      have hvfin : finiteVal v = true := by
        cases hj : st.jitter
        · rw [hj] at hl
          simp only [Bool.false_eq_true, if_false] at hl
          unfold lookupKey at hl
          cases hfd : List.find? (fun p => p.1 == "speculate") t with
          | none => simp [hfd] at hl
          | some p =>
            simp [hfd] at hl
            subst hl
            exact hall p (List.mem_of_find?_eq_some hfd)
        · rw [hj] at hl
          simp only [if_true] at hl
          exact jitterEntries_lookup_finite t "speculate" rand k v hall hl
      refine ⟨_, _, rfl, ?_⟩
      apply setKey_finite _ _ _ hjfin
      cases hv : v <;> simp [hv, finiteVal] at hvfin ⊢
      simp [JSNum.half, clampTiming, finiteVal]
  · simp only [hf, if_false]
    exact ⟨_, _, rfl, hjfin⟩

/-- Witness for C5 with jitter and fence both enabled on a record that does
contain a `speculate` phase. -/
theorem applyDefences_finite_witness :
    finiteRecord [("speculate", JSNum.fin 100)] = true ∧
    ∃ out k1,
      DefenceToolkit.applyDefences [("speculate", JSNum.fin 100)] true DefState.init
        (fun _ => 0) 0 = .ok (out, k1) ∧
      ∀ p ∈ out, finiteVal p.2 = true :=
  ⟨by decide,
   applyDefences_finite [("speculate", JSNum.fin 100)] true DefState.init (fun _ => 0) 0
     (by decide) (by decide)⟩

/-- C5 counterexample: a valid all-finite record without a `speculate` phase,
with the fence enabled and a misprediction, comes back with a fresh
`speculate` entry whose value is `NaN` — the call does introduce a `NaN`. -/
theorem applyDefences_finite_cex :
    DefenceToolkit.applyDefences [("prime", JSNum.fin 50)] true fenceOnlyState
      (fun _ => 0) 0 = .ok ([("prime", JSNum.fin 50), ("speculate", JSNum.nan)], 0) ∧
    finiteVal JSNum.nan = false :=
  ⟨by rfl, rfl⟩

/-- C6 (amended): on a valid timing record the toolkit method `clampTiming`
succeeds and every returned value is a (finite) multiple of 5.  The values
are **not** confined to `[20, 180]`: the method only coarsens granularity
and performs no range clamping (see the counterexample). -/
theorem clampTiming_multiple_of_five (t : TRecord) (h : finiteRecord t = true) :
    ∃ out, DefenceToolkit.clampTiming t = .ok out ∧
      ∀ p ∈ out, ∃ n : ℤ, p.2 = .fin ((n : ℚ) * 5) := by
  have hall : ∀ p ∈ t, finiteVal p.2 = true := by
    unfold finiteRecord at h
    rw [Bool.and_eq_true] at h
    exact fun p hp => List.all_eq_true.mp h.2 p hp
  unfold DefenceToolkit.clampTiming
  rw [validateTimings_ok_of_finite t h]
  refine ⟨_, rfl, ?_⟩
  intro p hp
  rcases List.mem_map.mp hp with ⟨q, hq, heq⟩
  subst heq
  have hfin := hall q hq
  cases hv : q.2 <;> simp [hv, finiteVal] at hfin ⊢
  exact ⟨_, rfl⟩

/-- Witness for C6 on a one-entry record: 47 rounds to the multiple 45. -/
theorem clampTiming_multiple_of_five_witness :
    finiteRecord [("a", JSNum.fin 47)] = true ∧
    ∃ out, DefenceToolkit.clampTiming [("a", JSNum.fin 47)] = .ok out ∧
      ∀ p ∈ out, ∃ n : ℤ, p.2 = .fin ((n : ℚ) * 5) :=
  ⟨by decide, clampTiming_multiple_of_five [("a", JSNum.fin 47)] (by decide)⟩

/-- C6 counterexample: the valid record `{a: 3}` maps to `{a: 5}`; 5 is a
multiple of 5 but lies outside `[20, 180]`, refuting the claimed range
invariant for the toolkit method. -/
theorem clampTiming_multiple_of_five_cex :
    DefenceToolkit.clampTiming [("a", JSNum.fin 3)] = .ok [("a", JSNum.fin 5)] ∧
    ¬((20 : ℚ) ≤ 5) :=
  ⟨by rfl, by norm_num⟩

theorem validatePattern_ok_not_malformed (p : Option JSPattern) (vp : ValidPattern)
    (h : validatePattern p = .ok vp) : patternMalformed p = false := by
  cases p with
  | none => simp [validatePattern] at h
  | some p =>
    obtain ⟨nm, tr, tg⟩ := p
    simp only [validatePattern] at h
    simp only [patternMalformed]
    cases nm <;> simp_all
    cases ht : asBoolArray tr <;> rw [ht] at h <;> simp_all
    cases tg <;> simp_all [isBoolVal]

/-- C4 (amended): `AttackSimulator.run` rejects — with no mutation of the
shared cache or predictor state — whenever the pattern is malformed in the
sense the code checks (name is not a string, training is not an array of
booleans, or trigger is not a boolean) or `defended` is not a boolean.  The
name check accepts the empty string (see the counterexample), which is the
only divergence from the claim. -/
theorem run_rejects_invalid (tk : DefState) (st : SimState) (p : Option JSPattern)
    (d : JSVal) (rand : ℕ → ℚ) (k : ℕ)
    (h : (patternMalformed p || !(isBoolVal d)) = true) :
    ∃ e, AttackSimulator.run tk st p d rand k = (.error e, st, k) := by
  cases hv : validatePattern p with
  | error e =>
    refine ⟨e, ?_⟩
    unfold AttackSimulator.run
    rw [hv]
  | ok vp =>
    have hm := validatePattern_ok_not_malformed p vp hv
    rw [hm, Bool.false_or, Bool.not_eq_true'] at h
    refine ⟨"AttackSimulator.run requires defended flag to be boolean", ?_⟩
    unfold AttackSimulator.run
    rw [hv]
    cases d <;> first
      | rfl
      | exact absurd h (by simp [isBoolVal])

/-- Witness for C4 at a missing pattern (`run(null, true)`): rejected with
the state untouched. -/
theorem run_rejects_invalid_witness :
    (patternMalformed none || !(isBoolVal (.boolv true))) = true ∧
    ∃ e, AttackSimulator.run DefState.init SimState.init none (.boolv true)
      (fun _ => 0) 0 = (.error e, SimState.init, 0) :=
  ⟨by decide,
   run_rejects_invalid DefState.init SimState.init none (.boolv true) (fun _ => 0) 0
     (by decide)⟩

/-- C4 counterexample: a pattern whose name is the **empty** string — not a
non-empty string, so malformed per the claim — is accepted, and the run
resolves instead of rejecting (the code only checks
`typeof pattern.name !== 'string'`). -/
theorem run_rejects_invalid_cex :
    ∃ res st1 k1,
      AttackSimulator.run DefState.init SimState.init
        (some ⟨.str "", .arr [], .boolv false⟩) (.boolv false) (fun _ => 0) 0 =
        (.ok res, st1, k1) :=
  ⟨_, _, _, rfl⟩

/-- C10: on a freshly constructed simulator, running the `branchTrain`
pattern (four `true` training outcomes, `false` trigger) undefended always
resolves, and the result reports `mispredict = true`, for every toolkit
toggle state and every random jitter source (the baseline state disables
jitter, so no randomness is consumed). -/
theorem run_branchTrain_mispredicts (tk : DefState) (rand : ℕ → ℚ) (k : ℕ) :
    ∃ res st1 k1,
      AttackSimulator.run tk SimState.init branchTrainPattern (.boolv false) rand k =
        (.ok res, st1, k1) ∧ res.mispredict = true :=
  ⟨_, _, _, rfl, rfl⟩

end BBSCAS
